import Mathlib

/-!
Shallow embedding of `src/levanter/models/via.py` (the Via audio-to-text model:
config, connector, projection, forward pass and loss) together with theorems
checking the natural-language specification against it.

Tensors are embedded as (nested) lists of rationals; named axes become list
nesting levels in the order (batch, position, embed).  The external modules the
file imports (WhisperEncoder, WhisperDecoder, the Llama/Mistral decoder,
jax PRNG splitting) are not part of the repository sources; they are modelled
from the spec as function-valued fields, as noted in each doc comment.
-/

set_option autoImplicit false

namespace Via

/-! Vectors and matrices over ℚ.  `Vec` is an embedding-axis vector, `Mat` is a
(position, embed) tensor, and batches are lists of these. -/

abbrev Vec := List ℚ

abbrev Mat := List Vec

/-- Dot product of two vectors (`hax.dot` over the embed axis). -/
def dotQ (xs ys : Vec) : ℚ :=
  (List.zipWith (fun a b => a * b) xs ys).sum

/-- Pointwise subtraction of two vectors. -/
def subQ (xs ys : Vec) : Vec :=
  List.zipWith (fun a b => a - b) xs ys

/-- Pointwise addition of two vectors (broadcast `+` in the source). -/
def addQ (xs ys : Vec) : Vec :=
  List.zipWith (fun a b => a + b) xs ys

/-- Mean of a list of rationals (`hax.mean` with `axis=None`, which reduces
over every axis of its input). -/
def meanQ (xs : List ℚ) : ℚ :=
  xs.sum / (xs.length : ℚ)

/-! Configuration.  `ViaConfig` embeds the dataclass of the same name in
`via.py`; the `WhisperConfig` and `LlamaConfig` sub-configs live outside the
given sources, so only the fields the Via code reads are modelled. -/

/-- Modelled from the spec: the audio-encoder sub-config.  The Via code reads
its embedding width (`enc_config.Embed`) and the mel axes (`Mels`, `MelPos`). -/
structure WhisperConfig where
  embedSize : Nat := 384
  melsSize : Nat := 80
  melPosSize : Nat := 3000

/-- Modelled from the spec: the language-model decoder sub-config.  The Via
code reads its embedding width (`dec_config.Embed`). -/
structure LlamaConfig where
  embedSize : Nat := 4096

/-- Embeds the frozen dataclass `ViaConfig`.  Note the dataclass body performs
no validation of any kind: every field combination is accepted. -/
structure ViaConfig where
  enc_config : WhisperConfig := {}
  dec_config : LlamaConfig := {}
  time_dialation : Nat := 4
  dialation_factor : Nat := 4
  pre_audio_prompt : List Int := [128000, 128006, 882, 128007, 271]
  pre_text_prompt : List Int := [128009, 128006, 78191, 128007, 271]

/-- Embeds the `Pos` property: `Axis("position", size=448)`. -/
def ViaConfig.PosSize (_ : ViaConfig) : Nat := 448

/-- Embeds the `TimeGroup` property: `Axis("position", size=448)`. -/
def ViaConfig.TimeGroupSize (_ : ViaConfig) : Nat := 448

/-- Embeds the `GroupedEmbed` property:
`Axis("embed_dim", enc_config.Embed.size * time_dialation)`.  (This axis is
defined by the config but never used by the model code.) -/
def ViaConfig.GroupedEmbedSize (c : ViaConfig) : Nat :=
  c.enc_config.embedSize * c.time_dialation

/-! Parameter trees.  jax flattens a model into a tree of array leaves; the
embedding encodes such trees as binary nested pairs, which preserves leaf
order and leaf count. -/

/-- A jax pytree with leaves of type α, encoded with binary nodes. -/
inductive PyTree (α : Type) where
  | leaf : α → PyTree α
  | node : PyTree α → PyTree α → PyTree α
  deriving DecidableEq

/-- Embeds `jax.tree_util.tree_map`: apply f to every leaf. -/
def PyTree.map {α β : Type} (f : α → β) : PyTree α → PyTree β
  | .leaf a => .leaf (f a)
  | .node l r => .node (l.map f) (r.map f)

/-- Number of leaves of a pytree. -/
def PyTree.leafCount {α : Type} : PyTree α → Nat
  | .leaf _ => 1
  | .node l r => l.leafCount + r.leafCount

/-- Number of leaves of a boolean pytree that are `true`. -/
def PyTree.countTrue : PyTree Bool → Nat
  | .leaf b => if b then 1 else 0
  | .node l r => l.countTrue + r.countTrue

/-- Structural isomorphism of two pytrees (same shape, leaf for leaf). -/
def PyTree.sameShape {α β : Type} : PyTree α → PyTree β → Bool
  | .leaf _, .leaf _ => true
  | .node l r, .node l' r' => sameShape l l' && sameShape r r'
  | _, _ => false

/-- A path addressing a subtree of a pytree. -/
inductive TreePath where
  | here : TreePath
  | left : TreePath → TreePath
  | right : TreePath → TreePath

/-- Embeds the effect of `eqx.tree_at` at one address: the entire subtree at
the address is replaced by the given replacement tree (a leaf replacement may
collapse a whole subtree).  An address that does not exist leaves the tree
unchanged. -/
def PyTree.replaceAt {α : Type} : PyTree α → TreePath → PyTree α → PyTree α
  | _, .here, r => r
  | .leaf a, .left _, _ => .leaf a
  | .leaf a, .right _, _ => .leaf a
  | .node l rt, .left p, r => .node (l.replaceAt p r) rt
  | .node l rt, .right p, r => .node l (rt.replaceAt p r)

/-- The parameter tree of a `ViaModel`, in dataclass field order:
`query_tokens` (one leaf), `projection` (weight and bias leaves), then the
`encoder`, `connector` and `decoder` subtrees of the external modules
(`_config` is a static field and contributes no leaves). -/
def viaParamTree {α : Type} (qt projW projB : α) (enc conn dec : PyTree α) : PyTree α :=
  .node (.leaf qt)
    (.node (.node (.leaf projW) (.leaf projB))
      (.node enc (.node conn dec)))

/-- Address of `tree.query_tokens` inside `viaParamTree`. -/
def qtPath : TreePath := .left .here

/-- Address of `tree.projection.weight` inside `viaParamTree`. -/
def projWPath : TreePath := .right (.left (.left .here))

/-- Address of `tree.projection.bias` inside `viaParamTree`. -/
def projBPath : TreePath := .right (.left (.right .here))

/-- Address of `tree.connector` inside `viaParamTree`. -/
def connPath : TreePath := .right (.right (.right (.left .here)))

/-- Embeds `connector_only` from `via.py`: build
`frozen_tree = jax.tree_util.tree_map(lambda _: False, model)` and then apply
`eqx.tree_at` replacing `(tree.query_tokens, tree.projection.weight,
tree.projection.bias, tree.connector)` with `(True, True, True, False)`.
The model's parameter tree is passed in by its pieces. -/
def connector_only {α : Type} (qt projW projB : α) (enc conn dec : PyTree α) : PyTree Bool :=
  let frozen := (viaParamTree qt projW projB enc conn dec).map (fun _ => false)
  ((((frozen.replaceAt qtPath (.leaf true)).replaceAt projWPath
      (.leaf true)).replaceAt projBPath (.leaf true)).replaceAt connPath (.leaf false))

/-! Stable argsort on boolean keys.  `via.py` computes
`push_back_padding = hax.argsort(text_tokens == pad_token_id, "position")` and
gathers with it.  jax argsort is stable, so on a boolean key vector it yields
the indices of the `false` entries in their original order followed by the
indices of the `true` entries in their original order. -/

/-- Indices (counted from offset n) of the entries of a key list satisfying p,
in their original order. -/
def idxWhere (p : Bool → Bool) : List Bool → Nat → List Nat
  | [], _ => []
  | k :: ks, n => if p k then n :: idxWhere p ks (n + 1) else idxWhere p ks (n + 1)

/-- Embeds jax's stable `argsort` on a boolean key vector: all `false` indices
in order, then all `true` indices in order. -/
def argsortBool (keys : List Bool) : List Nat :=
  idxWhere (fun k => k == false) keys 0 ++ idxWhere (fun k => k == true) keys 0

/-- Embeds the advanced-indexing gather `row[idx]`. -/
def gather (row : List Int) (idx : List Nat) : List Int :=
  idx.map (fun i => row.getD i 0)

/-- Embeds the combination in `via.py` lines 192-196: gather each row of
`text_tokens` with the stable argsort of `(text_tokens == pad_token_id)`. -/
def pushBackPadding (row : List Int) (pad : Int) : List Int :=
  gather row (argsortBool (row.map (fun t => t == pad)))

/-! Model components.  `hnn.Linear` is embedded concretely; the Whisper
encoder, the Whisper decoder used as connector, and the Llama/Mistral language
model are external modules, modelled from the spec as function-valued fields. -/

/-- Embeds `hnn.Linear`: an affine map given by a weight matrix (one row per
output coordinate) and a bias vector. -/
structure Linear where
  weight : Mat
  bias : Vec

/-- Applying a `Linear` to an input vector: each output coordinate is the dot
product of a weight row with the input, plus the bias coordinate. -/
def Linear.apply (l : Linear) (x : Vec) : Vec :=
  List.zipWith (fun row b => dotQ row x + b) l.weight l.bias

/-- Attention masks as the Via code builds them: `AttentionMask.causal()`,
combined by `&` with an explicit mask when one is supplied.  The mask is
passed opaque to the external transformer runtime. -/
inductive AttnMask where
  | causal : AttnMask
  | andMask : AttnMask → AttnMask → AttnMask
  | explicitMask : List (List Bool) → AttnMask

/-- Modelled from the spec (§6): the external audio encoder capability,
`encode(mel_features, key) -> per_frame_embeddings`, mapping a batch of mel
tensors to a batch of (time, embed) feature matrices. -/
structure WhisperEncoder where
  encode : List Mat → Nat → List Mat

/-- Modelled from the spec (§4.1, §6): the connector is an external Whisper
decoder.  `posEmbed` is its `embeddings.position_embeddings.embed` lookup, and
`blockOut i queries context mask key` is the output embedding the transformer
produces at query position i; the transformer returns one output per query
position. -/
structure WhisperDecoder where
  posEmbed : Nat → Vec
  blockOut : Nat → Mat → Mat → AttnMask → Nat → Vec

/-- Modelled from the spec (§6): `transformer(queries, context, mask, key)`
executes the decoder-style blocks, producing one output embedding per query
position. -/
def WhisperDecoder.transformer (d : WhisperDecoder) (queries context : Mat)
    (mask : AttnMask) (key : Nat) : Mat :=
  (List.range queries.length).map (fun i => d.blockOut i queries context mask key)

/-- Modelled from the spec (§6, §9): the external language-model decoder
capability, with its vocabulary size, its `embeddings.embed` token-embedding
lookup, and its `transformer` over embedded inputs (`blockOut i inputs mask
key` is the hidden state at position i; one output per input position). -/
structure DecoderLM where
  vocabSize : Nat
  embed : Int → Vec
  blockOut : Nat → Mat → AttnMask → Nat → Vec

/-- Modelled from the spec (§6): the decoder `transformer` over a sequence of
input embeddings, producing one hidden state per input position. -/
def DecoderLM.transformer (d : DecoderLM) (inputs : Mat) (mask : AttnMask) (key : Nat) : Mat :=
  (List.range inputs.length).map (fun i => d.blockOut i inputs mask key)

/-- Modelled from jax: `maybe_rng_split(key, n)` deterministically derives n
subkeys from a key.  Only determinism and arity matter to the Via code. -/
def splitKey (key n : Nat) : List Nat :=
  (List.range n).map (fun i => key * n + i)

/-- Embeds the `ViaModel` equinox module: its five parameter fields in source
order, plus the static `_config` field (exposed as `config` in the source). -/
structure ViaModel where
  query_tokens : Mat
  projection : Linear
  encoder : WhisperEncoder
  connector : WhisperDecoder
  decoder : DecoderLM
  config : ViaConfig

/-- Embeds `ViaModel.resize_vocab`: replace only the `decoder` field with
`decoder.resize_vocab(new_size, key)`.  The decoder's own resize operation is
external code, so it is passed in as the function `resizeDec`. -/
def ViaModel.resize_vocab (m : ViaModel) (resizeDec : DecoderLM → Nat → Option Nat → DecoderLM)
    (new_size : Nat) (key : Option Nat) : ViaModel :=
  { m with decoder := resizeDec m.decoder new_size key }

/-- Embeds `ViaModel.init`.  The external initializers (WhisperEncoder.init,
WhisperDecoder.init, the decoder class init, `hax.random.normal` and
`hnn.Linear.init`) are supplied as parameters; what the source fixes is the
key split and the shape of `query_tokens`:
`hax.random.normal(k_query, (config.TimeGroup, config.enc_config.Embed)) * 0.02`. -/
def ViaModel.init (Vocab : Nat) (config : ViaConfig)
    (normal : Nat → Nat → Nat → ℚ)
    (linInit : Nat → Nat → Nat → Linear)
    (encInit : WhisperConfig → Nat → WhisperEncoder)
    (connInit : WhisperConfig → Nat → WhisperDecoder)
    (decInit : Nat → LlamaConfig → Nat → DecoderLM)
    (key : Nat) : ViaModel :=
  let ks := splitKey key 5
  { query_tokens :=
      (List.range config.TimeGroupSize).map (fun i =>
        (List.range config.enc_config.embedSize).map (fun j =>
          normal (ks.getD 0 0) i j * (2 / 100)))
    projection := linInit config.enc_config.embedSize config.dec_config.embedSize key
    encoder := encInit config.enc_config (ks.getD 2 0)
    connector := connInit config.enc_config (ks.getD 3 0)
    decoder := decInit Vocab config.dec_config (ks.getD 4 0)
    config := config }

/-- Embeds the `query_position_embeds` property: the connector's position
embeddings at positions `0 .. TimeGroup-1`. -/
def ViaModel.query_position_embeds (m : ViaModel) : Mat :=
  (List.range m.config.TimeGroupSize).map m.connector.posEmbed

/-- The connector queries: `query_tokens + query_position_embeds`
(position-wise vector addition). -/
def ViaModel.queries (m : ViaModel) : Mat :=
  List.zipWith addQ m.query_tokens m.query_position_embeds

/-- Embeds `via.py` lines 157-166: encode the mel batch and run the connector
transformer with the (broadcast) queries over each example's audio features. -/
def ViaModel.virtWhisperTokens (m : ViaModel) (mel : List Mat) (mask : AttnMask)
    (kEnc kConn : Nat) : List Mat :=
  (m.encoder.encode mel kEnc).map
    (fun feats => m.connector.transformer m.queries feats mask kConn)

/-- Embeds `via.py` line 168: `virtual_tokens = projection(virt_whisper_tokens)`
— the learned linear map applied position-wise (after the axis rename); no
grouping or flattening of adjacent positions happens. -/
def ViaModel.virtualTokens (m : ViaModel) (mel : List Mat) (mask : AttnMask)
    (kEnc kConn : Nat) : List Mat :=
  (m.virtWhisperTokens mel mask kEnc kConn).map (fun mat => mat.map m.projection.apply)

/-- Embeds `ViaModel.__call__`.  Returns, per example, the audio-branch hidden
state at the last position and the text-branch hidden state at position
`-(number of pad tokens) - 1`; returns `none` when the internal `assert`
fails.  Note the variable shadowing at `via.py` line 172: the name `suffix`
is rebound there to `decoder.embeddings.embed(config.suffix)`, so the assert
at lines 200-205 compares the probed token id of each row against
`suffix["position", -1]` — the EMBEDDING VECTOR of the last suffix token,
broadcast over batch — not against the token id itself.  As elsewhere, the
elementwise comparison is modelled as an all-entries check (int operands are
promoted to the float domain, here ℚ, before comparing, as jax does). -/
def ViaModel.call (m : ViaModel) (mel : List Mat) (input_ids : List (List Int))
    (attn_mask : Option AttnMask) (pad_token_id : Int) (key : Nat) :
    Option (List Vec × List Vec) :=
  let causal_mask : AttnMask :=
    match attn_mask with
    | none => .causal
    | some am => .andMask .causal am
  let ks := splitKey key 4
  let virtual_tokens := m.virtualTokens mel causal_mask (ks.getD 0 0) (ks.getD 1 0)
  let k_decoder := ks.getD 2 0
  let prefix_embeds := m.config.pre_audio_prompt.map m.decoder.embed
  let suffix_embeds := m.config.pre_text_prompt.map m.decoder.embed
  let audio_embeds := virtual_tokens.map (fun vt => prefix_embeds ++ vt ++ suffix_embeds)
  let text_rows := input_ids.map
    (fun ids => m.config.pre_audio_prompt ++ ids ++ m.config.pre_text_prompt)
  let sorted_rows := text_rows.map (fun row => pushBackPadding row pad_token_id)
  let text_embeds := sorted_rows.map (fun row => row.map m.decoder.embed)
  if sorted_rows.all
      (fun row => (suffix_embeds.getLastD []).all
        (fun c => ((row.getD (row.length - row.count pad_token_id - 1) 0 : Int) : ℚ) == c))
  then
    let audio_states := audio_embeds.map (fun ae => m.decoder.transformer ae causal_mask k_decoder)
    let text_states := text_embeds.map (fun te => m.decoder.transformer te causal_mask k_decoder)
    let audio_pred := audio_states.map (fun st => st.getD (st.length - 1) [])
    let virt_pred := List.zipWith
      (fun st row => st.getD (row.length - row.count pad_token_id - 1) [])
      text_states sorted_rows
    some (audio_pred, virt_pred)
  else none

/-- Embeds `AudioTextExample` from `levanter.models.asr_model` (outside the
given sources).  Modelled from the spec: mel audio features, text token ids,
an optional attention mask, and the LossMask marking the positions that
contribute to the loss. -/
structure AudioTextExample where
  audio : List Mat
  tokens : List (List Int)
  attn_mask : Option AttnMask := none
  loss_mask : List (List Bool) := []

/-- Result of `compute_loss`: the unreduced loss tensor (one entry per batch
example) when no reduction is supplied, or a reduced scalar. -/
inductive LossResult where
  | tensor : List ℚ → LossResult
  | scalar : ℚ → LossResult
  deriving DecidableEq

/-- Embeds `ViaASRModel.compute_loss` (the only member `ViaASRModel` adds to
`ViaModel`): run the forward pass, take `diff = audio_pred - virt_pred`,
`loss = hax.dot(diff, diff, axis="embed")`, and either return the loss tensor
(when `reduction` is `None`) or apply the reduction (default `hax.mean` with
`reduction_axis=None`, i.e. `meanQ`, over the batch-indexed loss). -/
def ViaASRModel.compute_loss (m : ViaModel) (ex : AudioTextExample) (key : Nat)
    (reduction : Option (List ℚ → ℚ)) : Option LossResult :=
  match m.call ex.audio ex.tokens ex.attn_mask 128002 key with
  | none => none
  | some (audio_pred, virt_pred) =>
    let diff := List.zipWith subQ audio_pred virt_pred
    let loss := diff.map (fun d => dotQ d d)
    match reduction with
    | none => some (.tensor loss)
    | some r => some (.scalar (r loss))

/-! Spec-side definitions.  These follow the words of the specification (not
the code) and exist only to state refinement comparisons. -/

/-- Follows the spec's words (§4.4 item 1): per-position squared Euclidean
distance between the projected virtual token and the real decoder embedding of
the corresponding text token, masked by the LossMask and mean-reduced over the
masked positions.  (The spec then scales this by the fixed weight 0.025.) -/
def specEmbeddingRegressionLoss (virt real : Mat) (mask : List Bool) : ℚ :=
  let perPos := List.zipWith (fun v e => dotQ (subQ v e) (subQ v e)) virt real
  let masked := (List.zipWith (fun l b => (l, b)) perPos mask).filter (fun p => p.2)
  meanQ (masked.map (fun p => p.1))

/-! Concrete instances, used by counterexamples and witnesses.  They use the
default prompts and pad id of the source and tiny embedding widths. -/

/-- A small concrete configuration (default prompts, embedding width 1). -/
def cfgSmall : ViaConfig :=
  { enc_config := { embedSize := 1, melsSize := 1, melPosSize := 1 }
    dec_config := { embedSize := 1 } }

/-- A concrete encoder producing one zero feature frame per example. -/
def encZero : WhisperEncoder :=
  ⟨fun mel _ => mel.map (fun _ => [[0]])⟩

/-- A concrete connector whose position embeddings and block outputs are 0. -/
def connZero : WhisperDecoder :=
  ⟨fun _ => [0], fun _ _ _ _ _ => [0]⟩

/-- A concrete language-model decoder: vocabulary of size 3, constant
embedding table [271] (the coordinate equals the last suffix token id, so the
shadowed internal assert passes), and transformer blocks that output the
constant vector [1]. -/
def decConst : DecoderLM :=
  ⟨3, fun _ => [271], fun _ _ _ _ => [1]⟩

/-- A concrete language-model decoder whose block output records the input
sequence length, so the two branches of the forward pass differ; its embedding
table is the constant [271], as in `decConst`. -/
def decLen : DecoderLM :=
  ⟨3, fun _ => [271], fun _ inputs _ _ => [(inputs.length : ℚ)]⟩

/-- A concrete language-model decoder with the zero embedding table: its
last-suffix-token embedding [0] differs from the token id 271, so the
shadowed internal assert fails. -/
def decZero : DecoderLM :=
  ⟨3, fun _ => [0], fun _ _ _ _ => [1]⟩

/-- A concrete `ViaModel` with 448 query tokens and projection bias 276 (so
the projected virtual tokens are [276] while the decoder embeddings are
[271]). -/
def M0 : ViaModel :=
  { query_tokens := List.replicate 448 [0]
    projection := { weight := [[0]], bias := [276] }
    encoder := encZero
    connector := connZero
    decoder := decConst
    config := cfgSmall }

/-- Variant of `M0` with the length-recording decoder. -/
def M3 : ViaModel := { M0 with decoder := decLen }

/-- A concrete example: one batch element, one real token and one pad token. -/
def EX0 : AudioTextExample :=
  { audio := [[[0]]]
    tokens := [[7, 128002]]
    attn_mask := none
    loss_mask := [[true, true]] }

/-- A configuration whose `time_dialation` (the grouping factor) does not
divide `TimeGroup` = 448: the dataclass accepts it without any check. -/
def badConfig : ViaConfig := { cfgSmall with time_dialation := 3 }

/-- Variant of `M0` carrying the non-divisible configuration. -/
def M6 : ViaModel := { M0 with config := badConfig }

/-- Variant of `M0` with the zero embedding table: the shadowed assert fails
on it even though the argsort arranges the tokens exactly as intended. -/
def M9 : ViaModel := { M0 with decoder := decZero }

/-- The first example's projected virtual tokens of `M0`, as the spec's §4.4
regression loss consumes them. -/
def specVirt0 : Mat :=
  (M0.virtualTokens EX0.audio .causal 0 1).getD 0 []

/-- The decoder embeddings of the first example's text tokens of `EX0`. -/
def specTextEmb0 : Mat :=
  (EX0.tokens.getD 0 []).map M0.decoder.embed

/-- A concrete one-leaf encoder parameter subtree. -/
def encTree : PyTree Nat := .leaf 0

/-- A concrete two-leaf connector parameter subtree. -/
def connTree : PyTree Nat := .node (.leaf 0) (.leaf 0)

/-- A concrete one-leaf decoder parameter subtree. -/
def decTree : PyTree Nat := .leaf 0

/-- A trivial concrete sampler for `ViaModel.init` witnesses. -/
def normal0 : Nat → Nat → Nat → ℚ := fun _ _ _ => 0

/-- A trivial concrete linear initializer for `ViaModel.init` witnesses. -/
def linInit0 : Nat → Nat → Nat → Linear := fun _ _ _ => { weight := [[0]], bias := [0] }

/-- A trivial concrete encoder initializer for `ViaModel.init` witnesses. -/
def encInit0 : WhisperConfig → Nat → WhisperEncoder := fun _ _ => encZero

/-- A trivial concrete connector initializer for `ViaModel.init` witnesses. -/
def connInit0 : WhisperConfig → Nat → WhisperDecoder := fun _ _ => connZero

/-- A trivial concrete decoder initializer for `ViaModel.init` witnesses. -/
def decInit0 : Nat → LlamaConfig → Nat → DecoderLM := fun _ _ _ => decConst

/-- A concrete model built by `ViaModel.init`, for witnesses. -/
def Minit : ViaModel :=
  ViaModel.init 3 cfgSmall normal0 linInit0 encInit0 connInit0 decInit0 0

/-- The connector output of `Minit` on the one-frame feature matrix `[[0]]`. -/
def initOut0 : Mat :=
  Minit.connector.transformer Minit.queries [[0]] .causal 1

/-! Helper lemmas. -/

/-- The squared-distance expansion: `‖a - v‖² = ‖a‖² + ‖v‖² - 2⟨a, v⟩` for
equal-length vectors. -/
theorem dotQ_sub_expand : ∀ (a v : Vec), a.length = v.length →
    dotQ (subQ a v) (subQ a v) = dotQ a a + dotQ v v - 2 * dotQ a v := by
  intro a
  induction a with
  | nil =>
    intro v h
    cases v with
    | nil => simp [dotQ, subQ]
    | cons y ys => simp at h
  | cons x xs ih =>
    intro v h
    cases v with
    | nil => simp at h
    | cons y ys =>
      have hlen : xs.length = ys.length := by simpa using h
      have := ih ys hlen
      simp only [dotQ, subQ, List.zipWith_cons_cons, List.sum_cons] at this ⊢
      ring_nf
      ring_nf at this
      linarith

/-- No leaf of an all-`false` boolean tree is `true`. -/
theorem countTrue_map_false {α : Type} (t : PyTree α) :
    (t.map (fun _ => false)).countTrue = 0 := by
  induction t with
  | leaf a => simp [PyTree.map, PyTree.countTrue]
  | node l r ihl ihr => simp [PyTree.map, PyTree.countTrue, ihl, ihr]

/-- Shifting the offset of `idxWhere` shifts every produced index. -/
theorem idxWhere_succ (p : Bool → Bool) : ∀ (ks : List Bool) (n : Nat),
    idxWhere p ks (n + 1) = (idxWhere p ks n).map (fun i => i + 1) := by
  intro ks
  induction ks with
  | nil => intro n; simp [idxWhere]
  | cons k ks ih =>
    intro n
    by_cases h : p k = true
    · simp [idxWhere, h, ih (n + 1)]
    · simp only [Bool.not_eq_true] at h
      simp [idxWhere, h, ih (n + 1)]

/-- Gathering shifted indices from a cons skips the head. -/
theorem gather_cons_shift (t : Int) (ts : List Int) (is' : List Nat) :
    gather (t :: ts) (is'.map (fun i => i + 1)) = gather ts is' := by
  simp only [gather, List.map_map]
  apply List.map_congr_left
  intro i _
  simp [Function.comp, List.getD_cons_succ]

/-- Gathering the `idxWhere` indices of a mapped key list selects exactly the
elements whose key satisfies the predicate, in their original order. -/
theorem gather_idxWhere (p : Bool → Bool) (f : Int → Bool) : ∀ (row : List Int),
    gather row (idxWhere p (row.map f) 0) = row.filter (fun t => p (f t)) := by
  intro row
  induction row with
  | nil => simp [gather, idxWhere]
  | cons t ts ih =>
    have hshift := gather_cons_shift t ts (idxWhere p (ts.map f) 0)
    simp only [gather] at hshift ih
    by_cases h : p (f t) = true
    · simp only [List.map_cons, idxWhere, h, if_true, List.filter_cons]
      simp only [gather, List.map_cons, List.getD_cons_zero]
      rw [show (0 + 1 : Nat) = 1 from rfl, idxWhere_succ, hshift, ih]
    · simp only [Bool.not_eq_true] at h
      simp only [List.map_cons, idxWhere, h, Bool.false_eq_true, if_false, List.filter_cons]
      simp only [gather]
      rw [show (0 + 1 : Nat) = 1 from rfl, idxWhere_succ, hshift, ih]

/-- The argsort-then-gather combination puts the non-pad tokens first, in
their original order, followed by every pad token. -/
theorem pushBackPadding_eq (row : List Int) (pad : Int) :
    pushBackPadding row pad =
      row.filter (fun t => !(t == pad)) ++ List.replicate (row.count pad) pad := by
  simp only [pushBackPadding, argsortBool, gather, List.map_append]
  have h1 := gather_idxWhere (fun k => k == false) (fun t => t == pad) row
  have h2 := gather_idxWhere (fun k => k == true) (fun t => t == pad) row
  simp only [gather] at h1 h2
  rw [h1, h2]
  congr 1
  · apply List.filter_congr
    intro t _
    cases h : (t == pad) <;> simp
  · have : (fun t => ((t == pad) == true)) = (fun t : Int => (t == pad)) := by
      funext t; cases h : (t == pad) <;> simp
    rw [this, List.filter_beq]

/-- Reading `getD` at index `length - 1` gives the last element. -/
theorem getD_length_sub_one {α : Type} (d : α) : ∀ (l : List α), l ≠ [] →
    l.getD (l.length - 1) d = l.getLastD d := by
  intro l
  induction l with
  | nil => intro h; exact absurd rfl h
  | cons a l ih =>
    intro _
    cases l with
    | nil => rfl
    | cons b l' =>
      have hne : (b :: l') ≠ [] := by simp
      have : (a :: b :: l').length - 1 = (b :: l').length - 1 + 1 := by
        simp [List.length_cons]
      rw [this, List.getD_cons_succ, ih hne]
      simp [List.getLastD]

/-- The `getLastD` of an append with a non-empty right part is its `getLastD`. -/
theorem getLastD_append_right {α : Type} (d : α) (l₁ l₂ : List α) (h : l₂ ≠ []) :
    (l₁ ++ l₂).getLastD d = l₂.getLastD d := by
  rw [List.getLastD_eq_getLast?, List.getLastD_eq_getLast?, List.getLast?_append]
  cases h2 : l₂.getLast? with
  | none => exact absurd (List.getLast?_eq_none_iff.mp h2) h
  | some x => rfl

/-! Theorems for the claims. -/

/-- C4 counterexample: with a two-leaf connector subtree, the mask produced by
`connector_only` is not isomorphic to the model's parameter tree — the
connector subtree is collapsed into a single `false` leaf, so the mask has 6
leaves where the parameter tree has 7 — even though exactly 3 leaves are
marked trainable. -/
theorem connector_only_not_isomorphic :
    PyTree.sameShape (connector_only 0 0 0 encTree connTree decTree)
        (viaParamTree 0 0 0 encTree connTree decTree) = false ∧
    (connector_only 0 0 0 encTree connTree decTree).countTrue = 3 ∧
    (connector_only 0 0 0 encTree connTree decTree).leafCount = 6 ∧
    (viaParamTree 0 0 0 encTree connTree decTree).leafCount = 7 := by
  decide

/-- C4 amended: for every parameter tree, `connector_only` marks exactly the
query-token, projection-weight and projection-bias leaves trainable (3 `true`
leaves); the encoder and decoder subtrees stay all-`false` leaf for leaf,
while the connector subtree is wholesale replaced by the single leaf `false`
(so the mask is only leaf-isomorphic when the connector subtree is one leaf);
no configuration flag for making the connector trainable exists. -/
theorem connector_only_marks_exactly_three {α : Type} (qt projW projB : α)
    (enc conn dec : PyTree α) :
    connector_only qt projW projB enc conn dec =
      viaParamTree true true true (enc.map (fun _ => false)) (.leaf false)
        (dec.map (fun _ => false)) ∧
    (connector_only qt projW projB enc conn dec).countTrue = 3 := by
  have hform : connector_only qt projW projB enc conn dec =
      viaParamTree true true true (enc.map (fun _ => false)) (.leaf false)
        (dec.map (fun _ => false)) := by
    simp [connector_only, viaParamTree, PyTree.map, PyTree.replaceAt, qtPath, projWPath,
      projBPath, connPath]
  refine ⟨hform, ?_⟩
  rw [hform]
  simp [viaParamTree, PyTree.countTrue, countTrue_map_false]

/-- C6 amended: `ViaConfig` accepts every grouping factor — no divisibility
check exists — and the forward pass does not depend on `time_dialation` at
all, so no error can arise from it at construction or call time. -/
theorem config_grouping_never_validated (c : ViaConfig) (d : Nat) :
    ({ c with time_dialation := d } : ViaConfig).time_dialation = d ∧
    ({ c with time_dialation := d } : ViaConfig).TimeGroupSize = c.TimeGroupSize ∧
    ∀ (m : ViaModel) (mel : List Mat) (ids : List (List Int)) (attn : Option AttnMask)
      (pad : Int) (key : Nat),
      ViaModel.call { m with config := { m.config with time_dialation := d } } mel ids attn pad key =
        ViaModel.call m mel ids attn pad key :=
  ⟨rfl, rfl, fun _ _ _ _ _ _ => rfl⟩

/-- C8: `compute_loss` is a pure function of the model, the example, the key
and the reduction: two runs on identical arguments return identical results —
there is no hidden state in the embedded computation. -/
theorem compute_loss_deterministic (m : ViaModel) (ex : AudioTextExample) (key : Nat)
    (reduction : Option (List ℚ → ℚ)) :
    ViaASRModel.compute_loss m ex key reduction = ViaASRModel.compute_loss m ex key reduction :=
  rfl

/-- C10: `resize_vocab` replaces only the `decoder` field (with the decoder's
own external resize applied to it); the query tokens, projection, encoder,
connector and config of the result are those of the original model. -/
theorem resize_vocab_frame (m : ViaModel) (resizeDec : DecoderLM → Nat → Option Nat → DecoderLM)
    (new_size : Nat) (key : Option Nat) :
    (m.resize_vocab resizeDec new_size key).query_tokens = m.query_tokens ∧
    (m.resize_vocab resizeDec new_size key).projection = m.projection ∧
    (m.resize_vocab resizeDec new_size key).encoder = m.encoder ∧
    (m.resize_vocab resizeDec new_size key).connector = m.connector ∧
    (m.resize_vocab resizeDec new_size key).config = m.config ∧
    (m.resize_vocab resizeDec new_size key).decoder = resizeDec m.decoder new_size key :=
  ⟨rfl, rfl, rfl, rfl, rfl, rfl⟩

/-- Zipping a long enough replicate against a list maps over the list. -/
theorem zipWith_replicate_left {α β γ : Type} (f : α → β → γ) (a : α) :
    ∀ (l : List β) (n : Nat), l.length ≤ n →
      List.zipWith f (List.replicate n a) l = l.map (fun b => f a b) := by
  intro l
  induction l with
  | nil => intro n _; simp
  | cons b bs ih =>
    intro n hn
    cases n with
    | zero => simp at hn
    | succ m =>
      simp only [List.replicate_succ, List.zipWith_cons_cons, List.map_cons]
      rw [ih m (by simpa using hn)]

/-- Reading `getD` inside a replicate returns the replicated element. -/
theorem getD_replicate {α : Type} (a d : α) : ∀ (n i : Nat), i < n →
    (List.replicate n a).getD i d = a := by
  intro n
  induction n with
  | zero => intro i h; exact absurd h (Nat.not_lt_zero i)
  | succ m ih =>
    intro i h
    cases i with
    | zero => simp [List.replicate_succ]
    | succ j =>
      simp only [List.replicate_succ, List.getD_cons_succ]
      exact ih j (Nat.lt_of_succ_lt_succ h)

/-- Every connector output of a model built by `ViaModel.init` has exactly
`TimeGroup` positions, whatever the mel input and batch size are. -/
theorem init_virtWhisper_length (Vocab : Nat) (config : ViaConfig)
    (normal : Nat → Nat → Nat → ℚ) (linInit : Nat → Nat → Nat → Linear)
    (encInit : WhisperConfig → Nat → WhisperEncoder)
    (connInit : WhisperConfig → Nat → WhisperDecoder)
    (decInit : Nat → LlamaConfig → Nat → DecoderLM) (key : Nat)
    (mel : List Mat) (mask : AttnMask) (kEnc kConn : Nat) :
    ∀ out ∈ (ViaModel.init Vocab config normal linInit encInit connInit decInit
        key).virtWhisperTokens mel mask kEnc kConn,
      out.length = config.TimeGroupSize := by
  intro out hout
  simp only [ViaModel.virtWhisperTokens, List.mem_map] at hout
  obtain ⟨feats, _, rfl⟩ := hout
  simp [WhisperDecoder.transformer, ViaModel.queries, ViaModel.query_position_embeds,
    ViaModel.init]

/-- C7: for every mel input and batch size, the Temporal Connector's output of
a model built by `ViaModel.init` has exactly `TimeGroup` = 448 positions; the
count is fixed by the construction-time config, independent of the input. -/
theorem connector_output_has_timegroup_positions (Vocab : Nat) (config : ViaConfig)
    (normal : Nat → Nat → Nat → ℚ) (linInit : Nat → Nat → Nat → Linear)
    (encInit : WhisperConfig → Nat → WhisperEncoder)
    (connInit : WhisperConfig → Nat → WhisperDecoder)
    (decInit : Nat → LlamaConfig → Nat → DecoderLM) (key : Nat)
    (mel : List Mat) (mask : AttnMask) (kEnc kConn : Nat) :
    ∀ out ∈ (ViaModel.init Vocab config normal linInit encInit connInit decInit
        key).virtWhisperTokens mel mask kEnc kConn,
      out.length = config.TimeGroupSize ∧ config.TimeGroupSize = 448 := by
  intro out hout
  exact ⟨init_virtWhisper_length Vocab config normal linInit encInit connInit decInit
    key mel mask kEnc kConn out hout, rfl⟩

set_option maxRecDepth 10000 in
/-- Witness for C7 at a concrete initialized model and a one-example batch. -/
theorem connector_output_has_timegroup_positions_witness :
    initOut0 ∈ Minit.virtWhisperTokens [[[0]]] .causal 0 1 ∧
      initOut0.length = cfgSmall.TimeGroupSize ∧ cfgSmall.TimeGroupSize = 448 := by
  have hcomp : Minit.virtWhisperTokens [[[0]]] .causal 0 1 = [initOut0] := rfl
  have hmem : initOut0 ∈ Minit.virtWhisperTokens [[[0]]] .causal 0 1 := by
    rw [hcomp]; exact List.mem_singleton_self _
  exact ⟨hmem, connector_output_has_timegroup_positions 3 cfgSmall normal0 linInit0
    encInit0 connInit0 decInit0 0 [[[0]]] .causal 0 1 initOut0 hmem⟩

/-- C2 amended: the Time-Group Projector applies the learned linear map
position-wise to the connector output — no flattening of `GroupingFactor`
adjacent positions happens — so on a model built by `ViaModel.init` its output
has `TimeGroup` positions, not `TimeGroup / GroupingFactor`. -/
theorem projector_positionwise_no_grouping (Vocab : Nat) (config : ViaConfig)
    (normal : Nat → Nat → Nat → ℚ) (linInit : Nat → Nat → Nat → Linear)
    (encInit : WhisperConfig → Nat → WhisperEncoder)
    (connInit : WhisperConfig → Nat → WhisperDecoder)
    (decInit : Nat → LlamaConfig → Nat → DecoderLM) (key : Nat)
    (mel : List Mat) (mask : AttnMask) (kEnc kConn : Nat) :
    ((ViaModel.init Vocab config normal linInit encInit connInit decInit
        key).virtualTokens mel mask kEnc kConn =
      ((ViaModel.init Vocab config normal linInit encInit connInit decInit
        key).virtWhisperTokens mel mask kEnc kConn).map
          (fun mat => mat.map (ViaModel.init Vocab config normal linInit encInit connInit
            decInit key).projection.apply)) ∧
    ∀ vt ∈ (ViaModel.init Vocab config normal linInit encInit connInit decInit
        key).virtualTokens mel mask kEnc kConn,
      vt.length = config.TimeGroupSize := by
  refine ⟨rfl, ?_⟩
  intro vt hvt
  simp only [ViaModel.virtualTokens, List.mem_map] at hvt
  obtain ⟨mat, hmat, rfl⟩ := hvt
  rw [List.length_map]
  exact init_virtWhisper_length Vocab config normal linInit encInit connInit decInit
    key mel mask kEnc kConn mat hmat

set_option maxRecDepth 10000 in
/-- Witness for the amended C2 at a concrete initialized model. -/
theorem projector_positionwise_no_grouping_witness :
    initOut0.map Minit.projection.apply ∈ Minit.virtualTokens [[[0]]] .causal 0 1 ∧
      (initOut0.map Minit.projection.apply).length = cfgSmall.TimeGroupSize := by
  have h := projector_positionwise_no_grouping 3 cfgSmall normal0 linInit0
    encInit0 connInit0 decInit0 0 [[[0]]] .causal 0 1
  have hcomp : Minit.virtualTokens [[[0]]] .causal 0 1 = [initOut0.map Minit.projection.apply] :=
    rfl
  have hmem : initOut0.map Minit.projection.apply ∈ Minit.virtualTokens [[[0]]] .causal 0 1 := by
    rw [hcomp]; exact List.mem_singleton_self _
  exact ⟨hmem, h.2 (initOut0.map Minit.projection.apply) hmem⟩

/-- Evaluation of the concrete model `M0` on `EX0`: every projected virtual
token is the bias vector [276], at all 448 query positions, for any mask and
keys (the components of `M0` are constant functions). -/
theorem M0_virtualTokens_eval (mask : AttnMask) (kE kC : Nat) :
    M0.virtualTokens [[[0]]] mask kE kC = [List.replicate 448 [276]] := by
  simp only [ViaModel.virtualTokens, ViaModel.virtWhisperTokens, M0, EX0, encZero, connZero,
    WhisperDecoder.transformer, ViaModel.queries, ViaModel.query_position_embeds,
    ViaConfig.TimeGroupSize, cfgSmall, Linear.apply, addQ, dotQ,
    List.map_cons, List.map_nil, List.map_const', List.map_replicate, List.replicate_one,
    List.length_replicate, List.length_range, List.length_zipWith, List.zipWith_replicate,
    Nat.min_self, List.zipWith_cons_cons, List.zipWith_nil_right, List.zipWith_nil_left,
    List.sum_cons, List.sum_nil, zero_mul, mul_zero, add_zero, zero_add,
    List.length_cons, List.length_nil]

/-- C2 counterexample: on a concrete model the projector output has 448
positions — the full `TimeGroup` — and not `TimeGroup / GroupingFactor` = 112
as claimed. -/
theorem projector_output_not_grouped :
    ((M0.virtualTokens [[[0]]] .causal 0 1).getD 0 []).length = 448 ∧
    M0.config.TimeGroupSize = 448 ∧
    M0.config.TimeGroupSize / M0.config.time_dialation = 112 ∧
    (448 : Nat) ≠ 112 := by
  refine ⟨?_, rfl, by decide, by decide⟩
  rw [M0_virtualTokens_eval]
  simp only [List.getD_cons_zero, List.length_replicate]

/-- Evaluation of the concrete model `M3` (whose decoder blocks record the
input length): same virtual tokens as `M0`, since the decoder is not used
before projection. -/
theorem M3_virtualTokens_eval (mask : AttnMask) (kE kC : Nat) :
    M3.virtualTokens [[[0]]] mask kE kC = [List.replicate 448 [276]] := by
  simp only [ViaModel.virtualTokens, ViaModel.virtWhisperTokens, M3, M0, encZero, connZero,
    WhisperDecoder.transformer, ViaModel.queries, ViaModel.query_position_embeds,
    ViaConfig.TimeGroupSize, cfgSmall, Linear.apply, addQ, dotQ,
    List.map_cons, List.map_nil, List.map_const', List.map_replicate, List.replicate_one,
    List.length_replicate, List.length_range, List.length_zipWith, List.zipWith_replicate,
    Nat.min_self, List.zipWith_cons_cons, List.zipWith_nil_right, List.zipWith_nil_left,
    List.sum_cons, List.sum_nil, zero_mul, mul_zero, add_zero, zero_add,
    List.length_cons, List.length_nil]

/-- Full evaluation of `M0.call` on the concrete batch: the audio-branch and
text-branch predictions are both the constant block output [1], and the
internal assertion passes. -/
theorem M0_call_eval :
    M0.call [[[0]]] [[7, 128002]] none 128002 0 = some ([[1]], [[1]]) := by
  have hsort : pushBackPadding
      [128000, 128006, 882, 128007, 271, 7, 128002, 128009, 128006, 78191, 128007, 271]
      (128002 : Int) =
      [128000, 128006, 882, 128007, 271, 7, 128009, 128006, 78191, 128007, 271, 128002] := by
    decide
  have hlen : ([128000, 128006, 882, 128007, 271, 7, 128009, 128006, 78191, 128007, 271,
      128002] : List Int).length = 12 := by decide
  have hcount : ([128000, 128006, 882, 128007, 271, 7, 128009, 128006, 78191, 128007, 271,
      128002] : List Int).count 128002 = 1 := by decide
  have hget : ([128000, 128006, 882, 128007, 271, 7, 128009, 128006, 78191, 128007, 271,
      128002] : List Int).getD 10 0 = 271 := by decide
  have hsl : ([[(271 : ℚ)], [271], [271], [271], [271]] : Mat).getLastD [] = [(271 : ℚ)] :=
    rfl
  simp only [ViaModel.call, M0_virtualTokens_eval]
  simp only [M0, cfgSmall, decConst, DecoderLM.transformer,
    List.map_cons, List.map_nil, List.cons_append, List.nil_append, hsort,
    List.map_const', List.map_replicate, hlen, hcount, hget, hsl,
    List.length_cons, List.length_nil, List.length_append, List.length_replicate,
    List.length_range, Nat.reduceAdd, Nat.reduceSub, Nat.reduceLT, Int.cast_ofNat,
    List.all_cons, List.all_nil, beq_self_eq_true, Bool.and_self, Bool.and_true,
    eq_self_iff_true, if_true, getD_replicate,
    List.zipWith_cons_cons, List.zipWith_nil_right, List.zipWith_nil_left]

/-- Full evaluation of `M3.call` on the concrete batch: the audio branch sees
a 458-position input, the text branch a 12-position input, and the
length-recording decoder makes the two predictions differ. -/
theorem M3_call_eval :
    M3.call [[[0]]] [[7, 128002]] none 128002 0 = some ([[(458 : ℚ)]], [[(12 : ℚ)]]) := by
  have hsort : pushBackPadding
      [128000, 128006, 882, 128007, 271, 7, 128002, 128009, 128006, 78191, 128007, 271]
      (128002 : Int) =
      [128000, 128006, 882, 128007, 271, 7, 128009, 128006, 78191, 128007, 271, 128002] := by
    decide
  have hlen : ([128000, 128006, 882, 128007, 271, 7, 128009, 128006, 78191, 128007, 271,
      128002] : List Int).length = 12 := by decide
  have hcount : ([128000, 128006, 882, 128007, 271, 7, 128009, 128006, 78191, 128007, 271,
      128002] : List Int).count 128002 = 1 := by decide
  have hget : ([128000, 128006, 882, 128007, 271, 7, 128009, 128006, 78191, 128007, 271,
      128002] : List Int).getD 10 0 = 271 := by decide
  have hsl : ([[(271 : ℚ)], [271], [271], [271], [271]] : Mat).getLastD [] = [(271 : ℚ)] :=
    rfl
  simp only [ViaModel.call, M3_virtualTokens_eval]
  simp only [M3, M0, cfgSmall, decLen, DecoderLM.transformer,
    List.map_cons, List.map_nil, List.cons_append, List.nil_append, hsort,
    List.map_const', List.map_replicate, hlen, hcount, hget, hsl,
    List.length_cons, List.length_nil, List.length_append, List.length_replicate,
    List.length_range, Nat.reduceAdd, Nat.reduceSub, Nat.reduceLT, Int.cast_ofNat,
    List.all_cons, List.all_nil, beq_self_eq_true, Bool.and_self, Bool.and_true,
    eq_self_iff_true, if_true, getD_replicate, Nat.cast_ofNat,
    List.zipWith_cons_cons, List.zipWith_nil_right, List.zipWith_nil_left]

/-- Evaluation of the concrete model `M6` (the non-divisible configuration):
the virtual tokens are those of `M0`, since `time_dialation` is never read. -/
theorem M6_virtualTokens_eval (mask : AttnMask) (kE kC : Nat) :
    M6.virtualTokens [[[0]]] mask kE kC = [List.replicate 448 [276]] := by
  simp only [ViaModel.virtualTokens, ViaModel.virtWhisperTokens, M6, M0, badConfig, encZero,
    connZero, WhisperDecoder.transformer, ViaModel.queries, ViaModel.query_position_embeds,
    ViaConfig.TimeGroupSize, cfgSmall, Linear.apply, addQ, dotQ,
    List.map_cons, List.map_nil, List.map_const', List.map_replicate, List.replicate_one,
    List.length_replicate, List.length_range, List.length_zipWith, List.zipWith_replicate,
    Nat.min_self, List.zipWith_cons_cons, List.zipWith_nil_right, List.zipWith_nil_left,
    List.sum_cons, List.sum_nil, zero_mul, mul_zero, add_zero, zero_add,
    List.length_cons, List.length_nil]

/-- Full evaluation of `M6.call` on the concrete batch: despite the
non-divisible grouping factor, the forward pass completes exactly as `M0`'s. -/
theorem M6_call_eval :
    M6.call [[[0]]] [[7, 128002]] none 128002 0 = some ([[1]], [[1]]) := by
  have hsort : pushBackPadding
      [128000, 128006, 882, 128007, 271, 7, 128002, 128009, 128006, 78191, 128007, 271]
      (128002 : Int) =
      [128000, 128006, 882, 128007, 271, 7, 128009, 128006, 78191, 128007, 271, 128002] := by
    decide
  have hlen : ([128000, 128006, 882, 128007, 271, 7, 128009, 128006, 78191, 128007, 271,
      128002] : List Int).length = 12 := by decide
  have hcount : ([128000, 128006, 882, 128007, 271, 7, 128009, 128006, 78191, 128007, 271,
      128002] : List Int).count 128002 = 1 := by decide
  have hget : ([128000, 128006, 882, 128007, 271, 7, 128009, 128006, 78191, 128007, 271,
      128002] : List Int).getD 10 0 = 271 := by decide
  have hsl : ([[(271 : ℚ)], [271], [271], [271], [271]] : Mat).getLastD [] = [(271 : ℚ)] :=
    rfl
  simp only [ViaModel.call, M6_virtualTokens_eval]
  simp only [M6, M0, badConfig, cfgSmall, decConst, DecoderLM.transformer,
    List.map_cons, List.map_nil, List.cons_append, List.nil_append, hsort,
    List.map_const', List.map_replicate, hlen, hcount, hget, hsl,
    List.length_cons, List.length_nil, List.length_append, List.length_replicate,
    List.length_range, Nat.reduceAdd, Nat.reduceSub, Nat.reduceLT, Int.cast_ofNat,
    List.all_cons, List.all_nil, beq_self_eq_true, Bool.and_self, Bool.and_true,
    eq_self_iff_true, if_true, getD_replicate,
    List.zipWith_cons_cons, List.zipWith_nil_right, List.zipWith_nil_left]

/-- C6 counterexample: a configuration whose grouping factor 3 does not divide
TimeGroup = 448 is accepted at construction (the dataclass records it without
any check) and the forward pass still completes normally. -/
theorem config_divisibility_unchecked :
    badConfig.time_dialation = 3 ∧
    badConfig.TimeGroupSize % badConfig.time_dialation ≠ 0 ∧
    (M6.call EX0.audio EX0.tokens none 128002 0).isSome = true := by
  refine ⟨rfl, by decide, ?_⟩
  rw [show M6.call EX0.audio EX0.tokens none 128002 0 =
      M6.call [[[0]]] [[7, 128002]] none 128002 0 from rfl, M6_call_eval]
  rfl

/-- C1 counterexample: on a concrete model and example, `compute_loss` with
the default mean reduction returns 0, while the spec's §4.4 embedding
regression term on the same projected virtual tokens and decoder embeddings is
25; since any cross-entropy term is nonnegative, no value of it satisfies
"total = cross_entropy + 0.025 · embedding_regression" here — the code's loss
contains neither term. -/
theorem compute_loss_not_hybrid_cex :
    ViaASRModel.compute_loss M0 EX0 0 (some meanQ) = some (.scalar 0) ∧
    specEmbeddingRegressionLoss specVirt0 specTextEmb0 [true, true] = 25 ∧
    ¬ ∃ ce : ℚ, 0 ≤ ce ∧ (0 : ℚ) = ce + 25 / 1000 * 25 := by
  refine ⟨?_, ?_, ?_⟩
  · simp only [ViaASRModel.compute_loss, EX0, M0_call_eval, meanQ, dotQ, subQ,
      List.zipWith_cons_cons, List.zipWith_nil_right, List.zipWith_nil_left,
      List.map_cons, List.map_nil, List.sum_cons, List.sum_nil,
      List.length_cons, List.length_nil]
    norm_num
  · have h1 : specVirt0 = List.replicate 448 [276] := by
      simp only [specVirt0, EX0, M0_virtualTokens_eval, List.getD_cons_zero]
    have h2 : specTextEmb0 = [[271], [271]] := by
      simp only [specTextEmb0, EX0, M0, decConst, List.map_cons, List.map_nil,
        List.getD_cons_zero]
    rw [specEmbeddingRegressionLoss, h1, h2,
      zipWith_replicate_left _ [276] [[271], [271]] 448 (by decide)]
    norm_num [dotQ, subQ, meanQ, List.filter_cons, List.filter_nil]
  · rintro ⟨ce, hce, heq⟩
    linarith

/-- C1 amended: `compute_loss` with the default mean reduction returns the
mean over the batch of the squared Euclidean distance between the audio-branch
prediction and the text-branch prediction; it contains no cross-entropy term,
no 0.025-weighted term, and ignores the example's loss mask entirely. -/
theorem compute_loss_is_mean_squared_distance (m : ViaModel) (ex : AudioTextExample)
    (key : Nat) (a v : List Vec)
    (h : m.call ex.audio ex.tokens ex.attn_mask 128002 key = some (a, v)) :
    ViaASRModel.compute_loss m ex key (some meanQ) =
      some (.scalar (meanQ (List.zipWith (fun ap vp => dotQ (subQ ap vp) (subQ ap vp)) a v))) ∧
    ∀ lm, ViaASRModel.compute_loss m { ex with loss_mask := lm } key (some meanQ) =
      ViaASRModel.compute_loss m ex key (some meanQ) := by
  constructor
  · simp only [ViaASRModel.compute_loss, h, List.map_zipWith]
  · intro lm
    rfl

/-- Witness for the amended C1 at the concrete model `M0` and example `EX0`. -/
theorem compute_loss_is_mean_squared_distance_witness :
    ViaASRModel.compute_loss M0 EX0 0 (some meanQ) =
      some (.scalar (meanQ (List.zipWith (fun ap vp => dotQ (subQ ap vp) (subQ ap vp))
        [[1]] [[1]]))) :=
  (compute_loss_is_mean_squared_distance M0 EX0 0 [[1]] [[1]] M0_call_eval).1

/-- Mapping the squared norm over position-wise differences equals the
expanded dot-product form, position for position. -/
theorem zipWith_sq_expand : ∀ (a v : List Vec),
    List.Forall₂ (fun x y => x.length = y.length) a v →
    (List.zipWith subQ a v).map (fun d => dotQ d d) =
      List.zipWith (fun ap vp => dotQ ap ap + dotQ vp vp - 2 * dotQ ap vp) a v := by
  intro a v h
  induction h with
  | nil => simp
  | cons hxy htail ih =>
    simp only [List.zipWith_cons_cons, List.map_cons, ih, List.cons.injEq, and_true]
    exact dotQ_sub_expand _ _ hxy

/-- C3 amended: the per-example loss the code computes is the direct squared
Euclidean distance between the audio-branch and text-branch hidden states,
which equals the expanded form `‖a‖² + ‖v‖² - 2⟨a, v⟩` exactly (over ℚ); the
code never forms vocabulary-wide pseudo-logits and applies no negation. -/
theorem loss_equals_expanded_squared_distance (m : ViaModel) (ex : AudioTextExample)
    (key : Nat) (a v : List Vec)
    (h : m.call ex.audio ex.tokens ex.attn_mask 128002 key = some (a, v))
    (hl : List.Forall₂ (fun x y => x.length = y.length) a v) :
    ViaASRModel.compute_loss m ex key none =
      some (.tensor (List.zipWith (fun ap vp => dotQ ap ap + dotQ vp vp - 2 * dotQ ap vp) a v)) := by
  simp only [ViaASRModel.compute_loss, h]
  rw [zipWith_sq_expand a v hl]

/-- Witness for the amended C3 at the concrete model `M0` and example `EX0`. -/
theorem loss_equals_expanded_squared_distance_witness :
    ViaASRModel.compute_loss M0 EX0 0 none =
      some (.tensor (List.zipWith (fun ap vp => dotQ ap ap + dotQ vp vp - 2 * dotQ ap vp)
        [[1]] [[1]])) :=
  loss_equals_expanded_squared_distance M0 EX0 0 [[1]] [[1]] M0_call_eval
    (List.Forall₂.cons rfl List.Forall₂.nil)

/-- C3 counterexample: on a concrete model the loss tensor holds the single
positive value 198916 = (458 - 12)² — the direct squared distance between the
two hidden states.  It is one value per batch example (here length 1), not a
(batch, position, vocab) pseudo-logit tensor (which would have 448·3 entries
per example), and it is positive where the claimed scores are negated squared
distances. -/
theorem no_vocab_pseudologits_cex :
    ViaASRModel.compute_loss M3 EX0 0 none = some (.tensor [198916]) ∧
    (0 : ℚ) < 198916 ∧
    M3.config.PosSize * M3.decoder.vocabSize = 1344 ∧ (1 : Nat) ≠ 1344 := by
  refine ⟨?_, by norm_num, by decide, by decide⟩
  simp only [ViaASRModel.compute_loss, EX0, M3_call_eval, dotQ, subQ,
    List.zipWith_cons_cons, List.zipWith_nil_right, List.zipWith_nil_left,
    List.map_cons, List.map_nil, List.sum_cons, List.sum_nil]
  norm_num

/-- C5 amended: with `reduction=None`, `compute_loss` returns the unreduced
loss tensor, which has one entry per batch example (not one per text
position), and applying the mean reduction to that tensor gives exactly the
scalar returned with the default mean reduction. -/
theorem unreduced_loss_mean_relation (m : ViaModel) (ex : AudioTextExample)
    (key : Nat) (a v : List Vec)
    (h : m.call ex.audio ex.tokens ex.attn_mask 128002 key = some (a, v)) :
    ViaASRModel.compute_loss m ex key none =
      some (.tensor ((List.zipWith subQ a v).map (fun d => dotQ d d))) ∧
    ((List.zipWith subQ a v).map (fun d => dotQ d d)).length = min a.length v.length ∧
    ViaASRModel.compute_loss m ex key (some meanQ) =
      some (.scalar (meanQ ((List.zipWith subQ a v).map (fun d => dotQ d d)))) := by
  refine ⟨?_, ?_, ?_⟩
  · simp only [ViaASRModel.compute_loss, h]
  · simp
  · simp only [ViaASRModel.compute_loss, h]

/-- Witness for the amended C5 at the concrete model `M0` and example `EX0`. -/
theorem unreduced_loss_mean_relation_witness :
    ViaASRModel.compute_loss M0 EX0 0 none =
      some (.tensor ((List.zipWith subQ [[1]] [[1]]).map (fun d => dotQ d d))) ∧
    ((List.zipWith subQ [[1]] [[1]]).map (fun d : Vec => dotQ d d)).length =
      min ([[(1 : ℚ)]]).length ([[(1 : ℚ)]]).length ∧
    ViaASRModel.compute_loss M0 EX0 0 (some meanQ) =
      some (.scalar (meanQ ((List.zipWith subQ [[1]] [[1]]).map (fun d => dotQ d d)))) :=
  unreduced_loss_mean_relation M0 EX0 0 [[1]] [[1]] M0_call_eval

/-- C5 counterexample: the unreduced tensor has exactly one entry — one per
batch example — while the example has 2 text-token positions and the model's
position axis has 448; it is per-example, not per-position. -/
theorem unreduced_loss_not_per_position_cex :
    ViaASRModel.compute_loss M0 EX0 0 none = some (.tensor [0]) ∧
    EX0.tokens.length = 1 ∧
    (EX0.tokens.getD 0 []).length = 2 ∧
    M0.config.PosSize = 448 ∧
    (1 : Nat) ≠ 2 ∧ (1 : Nat) ≠ 448 := by
  refine ⟨?_, by decide, by decide, by decide, by decide, by decide⟩
  simp only [ViaASRModel.compute_loss, EX0, M0_call_eval, dotQ, subQ,
    List.zipWith_cons_cons, List.zipWith_nil_right, List.zipWith_nil_left,
    List.map_cons, List.map_nil, List.sum_cons, List.sum_nil]
  norm_num

/-- In a pad-free list followed by padding, the element at index
`length - count - 1` is the last pad-free element. -/
theorem getD_last_nonpad (N : List Int) (pad : Int) (C : Nat)
    (hNne : N ≠ []) (hnotmem : pad ∉ N) :
    (N ++ List.replicate C pad).getD
      ((N ++ List.replicate C pad).length - (N ++ List.replicate C pad).count pad - 1) 0 =
      N.getLastD 0 := by
  have hcount : (N ++ List.replicate C pad).count pad = C := by
    rw [List.count_append, List.count_replicate_self, List.count_eq_zero.mpr hnotmem,
      Nat.zero_add]
  have hlen : (N ++ List.replicate C pad).length = N.length + C := by
    rw [List.length_append, List.length_replicate]
  rw [hcount, hlen]
  have hidx : N.length + C - C - 1 = N.length - 1 := by omega
  rw [hidx]
  have hlt : N.length - 1 < N.length := by
    have : 0 < N.length := List.length_pos.mpr hNne
    omega
  rw [List.getD_append N (List.replicate C pad) 0 (N.length - 1) hlt]
  exact getD_length_sub_one 0 N hNne

/-- When the prefix and suffix prompts are pad-free and the suffix is
non-empty, the sorted row is the pad-free tokens in their original order
followed by every pad, and the position the assertion probes holds the last
suffix token. -/
theorem sorted_row_structure (pre ids suf : List Int) (pad : Int)
    (hpre : ∀ t ∈ pre, t ≠ pad) (hsuf : ∀ t ∈ suf, t ≠ pad) (hne : suf ≠ []) :
    pushBackPadding (pre ++ ids ++ suf) pad =
      (pre ++ ids.filter (fun t => !(t == pad)) ++ suf) ++
        List.replicate ((pre ++ ids ++ suf).count pad) pad ∧
    (pushBackPadding (pre ++ ids ++ suf) pad).getD
      ((pushBackPadding (pre ++ ids ++ suf) pad).length -
        (pushBackPadding (pre ++ ids ++ suf) pad).count pad - 1) 0 = suf.getLastD 0 := by
  have hfilter_pre : pre.filter (fun t => !(t == pad)) = pre :=
    List.filter_eq_self.mpr (fun a ha => by simp [hpre a ha])
  have hfilter_suf : suf.filter (fun t => !(t == pad)) = suf :=
    List.filter_eq_self.mpr (fun a ha => by simp [hsuf a ha])
  have hform : pushBackPadding (pre ++ ids ++ suf) pad =
      (pre ++ ids.filter (fun t => !(t == pad)) ++ suf) ++
        List.replicate ((pre ++ ids ++ suf).count pad) pad := by
    rw [pushBackPadding_eq]
    congr 1
    simp only [List.filter_append, hfilter_pre, hfilter_suf]
  have hNne : pre ++ ids.filter (fun t => !(t == pad)) ++ suf ≠ [] := by
    intro hcontra
    rcases List.append_eq_nil.mp hcontra with ⟨-, h2⟩
    exact hne h2
  have hnotmem : pad ∉ pre ++ ids.filter (fun t => !(t == pad)) ++ suf := by
    intro hmem
    rcases List.mem_append.mp hmem with h1 | h2
    · rcases List.mem_append.mp h1 with h3 | h4
      · exact hpre pad h3 rfl
      · have := (List.mem_filter.mp h4).2
        simp at this
    · exact hsuf pad h2 rfl
  refine ⟨hform, ?_⟩
  rw [hform, getD_last_nonpad _ pad _ hNne hnotmem,
    getLastD_append_right 0 (pre ++ ids.filter (fun t => !(t == pad))) suf hne]

/-- C9 counterexample: the stable argsort arranges the row exactly as the
claim describes — the probed position holds the last suffix token id 271 —
yet the internal assertion still fails and the call returns `none`: because
`suffix` is rebound at `via.py` line 172 to the embedded suffix, the assert
compares that token id with the coordinates of the last suffix token's
EMBEDDING vector (here [0], so 271 vs 0), not with the token itself. -/
theorem assert_compares_ids_to_embeddings_cex :
    (pushBackPadding (M9.config.pre_audio_prompt ++ [7, 128002] ++ M9.config.pre_text_prompt)
        128002).getD 10 0 = M9.config.pre_text_prompt.getLastD 0 ∧
    M9.call [[[0]]] [[7, 128002]] none 128002 0 = none := by
  refine ⟨by decide, ?_⟩
  have hsort : pushBackPadding
      [128000, 128006, 882, 128007, 271, 7, 128002, 128009, 128006, 78191, 128007, 271]
      (128002 : Int) =
      [128000, 128006, 882, 128007, 271, 7, 128009, 128006, 78191, 128007, 271, 128002] := by
    decide
  have hlen : ([128000, 128006, 882, 128007, 271, 7, 128009, 128006, 78191, 128007, 271,
      128002] : List Int).length = 12 := by decide
  have hcount : ([128000, 128006, 882, 128007, 271, 7, 128009, 128006, 78191, 128007, 271,
      128002] : List Int).count 128002 = 1 := by decide
  have hget : ([128000, 128006, 882, 128007, 271, 7, 128009, 128006, 78191, 128007, 271,
      128002] : List Int).getD 10 0 = 271 := by decide
  have hsl : ([[(0 : ℚ)], [0], [0], [0], [0]] : Mat).getLastD [] = [(0 : ℚ)] :=
    rfl
  have hne271 : ((271 : ℚ) == (0 : ℚ)) = false := by
    rw [beq_eq_false_iff_ne]
    norm_num
  simp only [ViaModel.call]
  simp only [M9, M0, cfgSmall, decZero,
    List.map_cons, List.map_nil, List.cons_append, List.nil_append, hsort,
    List.map_const', List.map_replicate, hlen, hcount, hget, hsl,
    List.length_cons, List.length_nil, Nat.reduceAdd, Nat.reduceSub, Int.cast_ofNat,
    hne271, List.all_cons, List.all_nil, Bool.false_and, Bool.and_true, Bool.and_self,
    Bool.false_eq_true, if_false]

/-- C9 amended: the stable argsort does move every pad token of each row to
the back, keeping the pad-free tokens in their original order, and the token
at position `-(number of pads) - 1` does equal the last suffix token; but the
internal assertion does not compare that token id with the suffix token:
since `suffix` is rebound at `via.py` line 172 to the embedded suffix, the
assert compares the id with the coordinates of the last suffix token's
embedding vector, so the call completes when every such coordinate equals the
token id — a coincidence of the embedding table, not a consequence of the
argsort arrangement. -/
theorem argsort_pushes_padding_back (m : ViaModel) (mel : List Mat) (ids : List (List Int))
    (attn : Option AttnMask) (key : Nat)
    (hpre : ∀ t ∈ m.config.pre_audio_prompt, t ≠ 128002)
    (hsuf : ∀ t ∈ m.config.pre_text_prompt, t ≠ 128002)
    (hne : m.config.pre_text_prompt ≠ []) :
    (∀ row ∈ ids,
      pushBackPadding (m.config.pre_audio_prompt ++ row ++ m.config.pre_text_prompt) 128002 =
        (m.config.pre_audio_prompt ++ row.filter (fun t => !(t == 128002)) ++
            m.config.pre_text_prompt) ++
          List.replicate
            ((m.config.pre_audio_prompt ++ row ++ m.config.pre_text_prompt).count 128002)
            128002) ∧
    (∀ row ∈ ids,
      (pushBackPadding (m.config.pre_audio_prompt ++ row ++ m.config.pre_text_prompt)
          128002).getD
        ((pushBackPadding (m.config.pre_audio_prompt ++ row ++ m.config.pre_text_prompt)
            128002).length -
          (pushBackPadding (m.config.pre_audio_prompt ++ row ++ m.config.pre_text_prompt)
            128002).count 128002 - 1) 0 = m.config.pre_text_prompt.getLastD 0) ∧
    ((((m.config.pre_text_prompt.map m.decoder.embed).getLastD []).all
        (fun c => ((m.config.pre_text_prompt.getLastD 0 : Int) : ℚ) == c)) = true →
      (m.call mel ids attn 128002 key).isSome = true) := by
  refine ⟨?_, ?_, ?_⟩
  · intro row _
    exact (sorted_row_structure m.config.pre_audio_prompt row m.config.pre_text_prompt
      128002 hpre hsuf hne).1
  · intro row _
    exact (sorted_row_structure m.config.pre_audio_prompt row m.config.pre_text_prompt
      128002 hpre hsuf hne).2
  · intro hcoin
    simp only [ViaModel.call]
    split
    · rfl
    · rename_i hcond
      exfalso
      apply hcond
      rw [List.all_eq_true]
      intro srow hsrow
      simp only [List.mem_map] at hsrow
      obtain ⟨trow, ⟨row, hrow, rfl⟩, rfl⟩ := hsrow
      have h2 := (sorted_row_structure m.config.pre_audio_prompt row
        m.config.pre_text_prompt 128002 hpre hsuf hne).2
      simp only [h2]
      exact hcoin

/-- Witness for the amended C9: at `M0` every coordinate of the last-suffix
embedding ([271]) equals the token id 271, so the call completes; the
prefix/suffix prompts are pad-free and the suffix is non-empty. -/
theorem argsort_pushes_padding_back_witness :
    (M0.call [[[0]]] [[7, 128002]] none 128002 0).isSome = true := by
  have hsl : ([[(271 : ℚ)], [271], [271], [271], [271]] : Mat).getLastD [] = [(271 : ℚ)] :=
    rfl
  have hlast : ([128009, 128006, 78191, 128007, 271] : List Int).getLastD 0 = 271 := by decide
  have hcoin : (((M0.config.pre_text_prompt.map M0.decoder.embed).getLastD []).all
      (fun c => ((M0.config.pre_text_prompt.getLastD 0 : Int) : ℚ) == c)) = true := by
    simp only [M0, cfgSmall, decConst, List.map_cons, List.map_nil, List.map_const',
      List.length_cons, List.length_nil, Nat.reduceAdd, hsl, hlast,
      List.all_cons, List.all_nil, Int.cast_ofNat, beq_self_eq_true, Bool.and_self,
      Bool.and_true]
  exact (argsort_pushes_padding_back M0 [[[0]]] [[7, 128002]] none 0 (by decide) (by decide)
    (by decide)).2.2 hcoin

end Via

